import Mathlib

/-!
Shallow embedding of the job-application-tracker backend
(`backend/app/services/...`) for checking its specification.

Python strings are embedded as Lean `String`s; Python dictionaries for
job records are embedded as a record of optional string fields
(`dict.get(key, default)` becomes `Option.getD`); Python floats in the
relevance scorer are embedded as exact rationals; Python exceptions are
embedded as `Except` results.
-/

namespace JobTracker

/-! ### Python string primitives -/

/-- Python `str.lower()` (restricted to ASCII case mapping, as is every
string operation in this embedding). -/
def pyLower (s : String) : String := ⟨s.data.map Char.toLower⟩

/-- Python `str.strip()`: drop leading and trailing whitespace. -/
def pyStrip (s : String) : String :=
  ⟨((s.data.dropWhile Char.isWhitespace).reverse.dropWhile Char.isWhitespace).reverse⟩

/-- Python `needle in haystack` substring test. -/
def pyContains (haystack needle : String) : Bool :=
  decide (needle.data <:+: haystack.data)

/-- Helper for Python `str.split()`: accumulates the current (reversed)
token while scanning the character list. -/
def pySplitAux : List Char → List Char → List String
  | [], cur => if cur = [] then [] else [⟨cur.reverse⟩]
  | c :: cs, cur =>
    if c.isWhitespace then
      if cur = [] then pySplitAux cs []
      else ⟨cur.reverse⟩ :: pySplitAux cs []
    else pySplitAux cs (c :: cur)

/-- Python `str.split()` with no argument: split on runs of whitespace,
discarding empty tokens. -/
def pySplit (s : String) : List String := pySplitAux s.data []

/-- Python `''.join(filter(str.isdigit, s))`. -/
def extractDigits (s : String) : String := ⟨s.data.filter Char.isDigit⟩

/-- Decimal value of a digit string (the success case of Python `int`). -/
def digitsToNat (l : List Char) : Nat :=
  l.foldl (fun n c => n * 10 + (c.toNat - 48)) 0

/-- Python `int(s)` applied to a string already filtered to digit
characters: it raises `ValueError` (here `none`) exactly on the empty
string. -/
def pyInt (s : String) : Option Nat :=
  if s = "" then none else some (digitsToNat s.data)

/-! ### The job record

A scraped job is a Python `dict`; the processor accesses the keys below
through `dict.get(key, default)`, so a record of `Option String` fields
(`none` = key absent) embeds every access the code performs. -/

structure Job where
  url : Option String := none
  title : Option String := none
  company : Option String := none
  description : Option String := none
  date_posted : Option String := none
  location : Option String := none
  relevance_score : Option ℚ := none
deriving DecidableEq, Repr

/-! ### JobResultProcessor (backend/app/services/job_result_processor.py) -/

/-- `get_date_value` inner function of `JobResultProcessor.sort_by_date`:
numeric sort key derived from the free-text `date_posted` phrase. -/
def getDateValue (job : Job) : Nat :=
  let date_str := pyLower (job.date_posted.getD "")
  if pyContains date_str "just now" || pyContains date_str "today"
      || pyContains date_str "hours ago" then 0
  else if pyContains date_str "yesterday" then 1
  else if pyContains date_str "days ago" || pyContains date_str "day ago" then
    match pyInt (extractDigits date_str) with
    | some days => days
    | none => 1000
  else if pyContains date_str "week" then
    7 * ((pyInt (extractDigits date_str)).getD 1)
  else if pyContains date_str "month" then
    30 * ((pyInt (extractDigits date_str)).getD 1)
  else 9999

/-- `JobResultProcessor.sort_by_date`: Python's stable `list.sort` with
`key=get_date_value` and `reverse=(sort_order.lower() != 'asc')`,
embedded as a stable insertion sort under the corresponding non-strict
key relation. -/
def sort_by_date (results : List Job) (sort_order : String) : List Job :=
  if pyLower sort_order = "asc" then
    results.insertionSort (fun a b => getDateValue a ≤ getDateValue b)
  else
    results.insertionSort (fun a b => getDateValue b ≤ getDateValue a)

/-- `job.get('url', '').strip()` as used by `filter_duplicates`. -/
def jobUrl (job : Job) : String := pyStrip (job.url.getD "")

/-- The `f"{title}|{company}"` identifier of `filter_duplicates`
(title and company stripped and lower-cased). -/
def jobIdentifier (job : Job) : String :=
  pyLower (pyStrip (job.title.getD "")) ++ "|" ++ pyLower (pyStrip (job.company.getD ""))

/-- Loop of `JobResultProcessor.filter_duplicates`: `seen_urls` and
`seen_job_identifiers` are the two `set()`s (embedded as lists used only
through membership), and a job is a duplicate when its non-empty URL was
seen or its title|company identifier was seen. -/
def filterDupGo (seen_urls seen_ids : List String) : List Job → List Job
  | [] => []
  | job :: rest =>
    let url := jobUrl job
    let ident := jobIdentifier job
    if (url ≠ "" ∧ url ∈ seen_urls) ∨ ident ∈ seen_ids then
      filterDupGo seen_urls seen_ids rest
    else
      job :: filterDupGo (if url = "" then seen_urls else url :: seen_urls)
        (ident :: seen_ids) rest

/-- `JobResultProcessor.filter_duplicates`. -/
def filter_duplicates (results : List Job) : List Job :=
  filterDupGo [] [] results

/-- `JobResultProcessor._calculate_recency_score`: recency in `[0,1]`
from the free-text date phrase. -/
def recency_score (date_str : String) : ℚ :=
  let d := pyLower date_str
  if pyContains d "just now" || pyContains d "today" || pyContains d "hours ago" then 1
  else if pyContains d "yesterday" then 9/10
  else if pyContains d "days ago" || pyContains d "day ago" then
    match pyInt (extractDigits d) with
    | some days => max (1/2) (1 - (days : ℚ)/30)
    | none => 1/2
  else if pyContains d "week" then 2/5
  else if pyContains d "month" then 1/5
  else 1/10

/-- Number of search keywords occurring in `text`
(`sum(1 for keyword in keywords if keyword in text)`). -/
def countMatches (keywords : List String) (text : String) : Nat :=
  (keywords.filter (fun k => pyContains text k)).length

/-- `JobResultProcessor.calculate_relevance`. When the search term
splits into zero keywords the divisions `title_matches / len(keywords)`
raise `ZeroDivisionError`, which the catch-all handler turns into the
default score `0.5`; that exception path is the `[]` branch here. -/
def calculate_relevance (job : Job) (search_term : String) : ℚ :=
  match pySplit (pyLower search_term) with
  | [] => 1/2
  | _ :: _ =>
    let keywords := pySplit (pyLower search_term)
    let k : ℚ := (keywords.length : ℚ)
    let title := pyLower (job.title.getD "")
    let description := pyLower (job.description.getD "")
    let company := pyLower (job.company.getD "")
    let title_score := min (2/5) (((countMatches keywords title : ℚ) / k) * (2/5))
    let desc_score :=
      if description ≠ "" then
        min (3/10) (((countMatches keywords description : ℚ) / k) * (3/10))
      else 0
    let company_score := min (1/10) (((countMatches keywords company : ℚ) / k) * (1/10))
    let rec_score := recency_score (job.date_posted.getD "")
    min 1 (title_score + desc_score + company_score + rec_score * (1/5))

/-- `JobResultProcessor.enrich_results`: computes the relevance score on
the un-normalized job, then fills the normalization defaults for missing
keys. -/
def enrich_results (results : List Job) (search_term : String) : List Job :=
  results.map (fun job =>
    { job with
      relevance_score := some (calculate_relevance job search_term)
      title := some (job.title.getD "Unknown Title")
      company := some (job.company.getD "Unknown Company")
      location := some (job.location.getD "Unknown Location")
      date_posted := some (job.date_posted.getD "Recently") })

/-! ### Deduplication lemmas -/

/-- Two jobs are duplicates in the sense of `filter_duplicates`: same
non-empty stripped URL, or same title|company identifier. -/
def dupRel (a b : Job) : Prop :=
  (jobUrl a ≠ "" ∧ jobUrl a = jobUrl b) ∨ jobIdentifier a = jobIdentifier b

instance (a b : Job) : Decidable (dupRel a b) := by
  unfold dupRel; infer_instance

theorem mem_filterDupGo {l : List Job} {us ids : List String} {j : Job}
    (h : j ∈ filterDupGo us ids l) :
    (jobUrl j ≠ "" → jobUrl j ∉ us) ∧ jobIdentifier j ∉ ids := by
  induction l generalizing us ids with
  | nil => simp [filterDupGo] at h
  | cons job rest ih =>
    by_cases hd : (jobUrl job ≠ "" ∧ jobUrl job ∈ us) ∨ jobIdentifier job ∈ ids
    · rw [filterDupGo, if_pos hd] at h
      exact ih h
    · rw [filterDupGo, if_neg hd] at h
      push_neg at hd
      rcases List.mem_cons.mp h with rfl | hmem
      · exact ⟨hd.1, hd.2⟩
      · have := ih hmem
        constructor
        · intro hne
          have h1 := this.1 hne
          by_cases hu : jobUrl job = ""
          · rw [if_pos hu] at h1
            exact h1
          · rw [if_neg hu] at h1
            exact fun hin => h1 (List.mem_cons_of_mem _ hin)
        · exact fun hin => this.2 (List.mem_cons_of_mem _ hin)

theorem pairwise_filterDupGo (l : List Job) (us ids : List String) :
    List.Pairwise (fun a b => ¬ dupRel a b) (filterDupGo us ids l) := by
  induction l generalizing us ids with
  | nil => simp [filterDupGo]
  | cons job rest ih =>
    by_cases hd : (jobUrl job ≠ "" ∧ jobUrl job ∈ us) ∨ jobIdentifier job ∈ ids
    · rw [filterDupGo, if_pos hd]
      exact ih us ids
    · rw [filterDupGo, if_neg hd]
      refine List.Pairwise.cons ?_ (ih _ _)
      intro b hb hdup
      have hmem := mem_filterDupGo hb
      rcases hdup with ⟨hne, hequ⟩ | hid
      · have hbne : jobUrl b ≠ "" := hequ ▸ hne
        have := hmem.1 hbne
        rw [← hequ, if_neg hne] at this
        exact this (List.mem_cons_self _ _)
      · exact hmem.2 (hid ▸ List.mem_cons_self _ _)

theorem filterDupGo_sublist (l : List Job) (us ids : List String) :
    (filterDupGo us ids l).Sublist l := by
  induction l generalizing us ids with
  | nil => simp [filterDupGo]
  | cons job rest ih =>
    by_cases hd : (jobUrl job ≠ "" ∧ jobUrl job ∈ us) ∨ jobIdentifier job ∈ ids
    · rw [filterDupGo, if_pos hd]
      exact (ih us ids).cons job
    · rw [filterDupGo, if_neg hd]
      exact (ih _ _).cons₂ job

theorem filterDupGo_eq_self {l : List Job} {us ids : List String}
    (hok : ∀ j ∈ l, (jobUrl j ≠ "" → jobUrl j ∉ us) ∧ jobIdentifier j ∉ ids)
    (hpw : List.Pairwise (fun a b => ¬ dupRel a b) l) :
    filterDupGo us ids l = l := by
  induction l generalizing us ids with
  | nil => simp [filterDupGo]
  | cons job rest ih =>
    have hhead := hok job (List.mem_cons_self _ _)
    have hd : ¬ ((jobUrl job ≠ "" ∧ jobUrl job ∈ us) ∨ jobIdentifier job ∈ ids) := by
      push_neg
      exact ⟨fun hne => hhead.1 hne, hhead.2⟩
    rw [filterDupGo, if_neg hd]
    rcases List.pairwise_cons.mp hpw with ⟨hjob, hrest⟩
    congr 1
    apply ih ?_ hrest
    intro j hj
    have hcur := hok j (List.mem_cons_of_mem _ hj)
    have hnd := hjob j hj
    rw [dupRel] at hnd
    push_neg at hnd
    constructor
    · intro hne
      by_cases hu : jobUrl job = ""
      · rw [if_pos hu]
        exact hcur.1 hne
      · rw [if_neg hu]
        intro hin
        rcases List.mem_cons.mp hin with hequ | hin2
        · exact (hnd.1 hu) hequ.symm
        · exact hcur.1 hne hin2
    · intro hin
      rcases List.mem_cons.mp hin with hequ | hin2
      · exact hnd.2 hequ.symm
      · exact hcur.2 hin2

theorem filterDupGo_complete {l : List Job} {us ids : List String} {j : Job}
    (hj : j ∈ l) :
    j ∈ filterDupGo us ids l ∨ (jobUrl j ≠ "" ∧ jobUrl j ∈ us) ∨ jobIdentifier j ∈ ids
      ∨ ∃ j2 ∈ filterDupGo us ids l, dupRel j2 j := by
  induction l generalizing us ids with
  | nil => simp at hj
  | cons job rest ih =>
    by_cases hd : (jobUrl job ≠ "" ∧ jobUrl job ∈ us) ∨ jobIdentifier job ∈ ids
    · rw [filterDupGo, if_pos hd]
      rcases List.mem_cons.mp hj with rfl | hmem
      · right
        rcases hd with h1 | h2
        · exact Or.inl h1
        · exact Or.inr (Or.inl h2)
      · exact ih hmem
    · rw [filterDupGo, if_neg hd]
      rcases List.mem_cons.mp hj with rfl | hmem
      · exact Or.inl (List.mem_cons_self _ _)
      · rcases @ih (if jobUrl job = "" then us else jobUrl job :: us)
          (jobIdentifier job :: ids) hmem with hin | hurl | hid | ⟨j2, hj2, hdup⟩
        · exact Or.inl (List.mem_cons_of_mem _ hin)
        · by_cases hu : jobUrl job = ""
          · rw [if_pos hu] at hurl
            exact Or.inr (Or.inl hurl)
          · rw [if_neg hu] at hurl
            rcases List.mem_cons.mp hurl.2 with hequ | hin2
            · refine Or.inr (Or.inr (Or.inr ⟨job, List.mem_cons_self _ _, Or.inl ⟨hu, ?_⟩⟩))
              exact hequ.symm
            · exact Or.inr (Or.inl ⟨hurl.1, hin2⟩)
        · rcases List.mem_cons.mp hid with hequ | hin2
          · exact Or.inr (Or.inr (Or.inr ⟨job, List.mem_cons_self _ _, Or.inr hequ.symm⟩))
          · exact Or.inr (Or.inr (Or.inl hin2))
        · exact Or.inr (Or.inr (Or.inr ⟨j2, List.mem_cons_of_mem _ hj2, hdup⟩))

/-- C2: `JobResultProcessor.filter_duplicates` is idempotent: applying it
to its own output returns that output unchanged. -/
theorem filter_duplicates_idempotent (results : List Job) :
    filter_duplicates (filter_duplicates results) = filter_duplicates results := by
  unfold filter_duplicates
  apply filterDupGo_eq_self
  · intro j _
    simp
  · exact pairwise_filterDupGo results [] []

/-- C4: the output of `JobResultProcessor.filter_duplicates` is an
order-preserving subsequence of the input, contains no two entries that
are duplicates of each other (same non-empty stripped URL or same
trimmed lower-cased title|company pair), always keeps the first input
entry, and every input entry is either kept or is a duplicate of some
kept entry. -/
theorem filter_duplicates_correct (results : List Job) :
    (filter_duplicates results).Sublist results
    ∧ List.Pairwise (fun a b => ¬ dupRel a b) (filter_duplicates results)
    ∧ (∀ job rest, results = job :: rest → job ∈ filter_duplicates results)
    ∧ (∀ j ∈ results, j ∈ filter_duplicates results
        ∨ ∃ j2 ∈ filter_duplicates results, dupRel j2 j) := by
  refine ⟨filterDupGo_sublist results [] [], pairwise_filterDupGo results [] [], ?_, ?_⟩
  · intro job rest hres
    subst hres
    unfold filter_duplicates
    rw [filterDupGo, if_neg (by simp)]
    exact List.mem_cons_self _ _
  · intro j hj
    rcases @filterDupGo_complete results [] [] j hj with hin | hurl | hid | hdup
    · exact Or.inl hin
    · simp at hurl
    · simp at hid
    · exact Or.inr hdup

/-- Witness for C4 at a concrete input: a second job sharing the first
one's URL is a duplicate of a kept job. -/
theorem filter_duplicates_correct_witness :
    (filter_duplicates
        [{ url := some "http://a", title := some "T" },
         { url := some "http://a", title := some "X" }]).Sublist
      [{ url := some "http://a", title := some "T" },
       { url := some "http://a", title := some "X" }]
    ∧ ({ url := some "http://a", title := some "T" } : Job) ∈
        filter_duplicates
          [{ url := some "http://a", title := some "T" },
           { url := some "http://a", title := some "X" }] :=
  ⟨(filter_duplicates_correct _).1,
    (filter_duplicates_correct _).2.2.1 _ _ rfl⟩

/-! ### Relevance-score lemmas -/

theorem recency_score_nonneg (d : String) : 0 ≤ recency_score d := by
  unfold recency_score
  simp only []
  split_ifs <;> try norm_num
  rcases pyInt (extractDigits (pyLower d)) with _ | days
  · norm_num
  · simp only
    have h12 : (0 : ℚ) ≤ 1/2 := by norm_num
    exact le_trans h12 (le_max_left _ _)

/-- C3: `JobResultProcessor.calculate_relevance` always returns a value
in `[0, 1]`: every component is non-negative, the total is capped by
`min 1`, and the error-default path returns `0.5`. -/
theorem calculate_relevance_bounds (job : Job) (search_term : String) :
    0 ≤ calculate_relevance job search_term ∧ calculate_relevance job search_term ≤ 1 := by
  unfold calculate_relevance
  rcases hk : pySplit (pyLower search_term) with _ | ⟨kw, kws⟩
  · norm_num
  · simp only
    have hrec := recency_score_nonneg (job.date_posted.getD "")
    constructor
    · apply le_min (by norm_num)
      apply add_nonneg
      apply add_nonneg
      apply add_nonneg
      · apply le_min (by norm_num)
        positivity
      · split_ifs
        · apply le_min (by norm_num)
          positivity
        · exact le_refl 0
      · apply le_min (by norm_num)
        positivity
      · exact mul_nonneg hrec (by norm_num)
    · exact min_le_left _ _

theorem toLower_of_isWhitespace {c : Char} (h : c.isWhitespace = true) :
    c.toLower = c := by
  have h4 : c = ' ' ∨ c = '\t' ∨ c = '\r' ∨ c = '\n' := by
    simpa [Char.isWhitespace, or_assoc] using h
  rcases h4 with h4 | h4 | h4 | h4 <;> subst h4 <;> decide

theorem pySplitAux_all_whitespace {cs : List Char}
    (h : ∀ c ∈ cs, c.isWhitespace = true) : pySplitAux cs [] = [] := by
  induction cs with
  | nil => rfl
  | cons c rest ih =>
    rw [pySplitAux, if_pos (h c (List.mem_cons_self _ _)), if_pos rfl]
    exact ih (fun d hd => h d (List.mem_cons_of_mem _ hd))

theorem pySplit_whitespace_eq_nil {s : String}
    (h : ∀ c ∈ s.data, c.isWhitespace = true) : pySplit (pyLower s) = [] := by
  unfold pySplit pyLower
  apply pySplitAux_all_whitespace
  intro c hc
  rcases List.mem_map.mp hc with ⟨c0, hc0, rfl⟩
  rw [toLower_of_isWhitespace (h c0 hc0)]
  exact h c0 hc0

/-- C9: if the search term is empty or whitespace-only, it splits into
zero keywords and `calculate_relevance` returns the error-default `0.5`
(the division by the keyword count raises `ZeroDivisionError`, which the
catch-all handler converts to the default score). -/
theorem calculate_relevance_empty_term (job : Job) (search_term : String)
    (h : ∀ c ∈ search_term.data, c.isWhitespace = true) :
    pySplit (pyLower search_term) = [] ∧ calculate_relevance job search_term = 1/2 := by
  have hnil := pySplit_whitespace_eq_nil h
  refine ⟨hnil, ?_⟩
  unfold calculate_relevance
  rw [hnil]

/-- Witness for C9: the whitespace-only search term `"  "` yields the
default score `0.5` on an empty job. -/
theorem calculate_relevance_empty_term_witness :
    pySplit (pyLower "  ") = [] ∧ calculate_relevance {} "  " = 1/2 :=
  calculate_relevance_empty_term {} "  " (by decide)

/-! ### The relevance formula as the specification words it (for C5) -/

/-- Recency score as the specification enumerates it: 1.0 for
today/just now/hours ago, 0.9 for yesterday, `max(0.5, 1 - days/30)`
for "N days ago", 0.4 for weeks, 0.2 for months, 0.1 otherwise. The
specification is silent on a days-ago phrase with no parseable number;
this follows the code's `ValueError` default of 0.5 there. -/
def specRecencyScore (date_str : String) : ℚ :=
  let d := pyLower date_str
  if pyContains d "just now" || pyContains d "today" || pyContains d "hours ago" then 1
  else if pyContains d "yesterday" then 9/10
  else if pyContains d "days ago" || pyContains d "day ago" then
    match pyInt (extractDigits d) with
    | some days => max (1/2) (1 - (days : ℚ)/30)
    | none => 1/2
  else if pyContains d "week" then 2/5
  else if pyContains d "month" then 1/5
  else 1/10

/-- Relevance as the specification words it: the weighted sum of a title
keyword-overlap component capped at 0.4, a description component capped
at 0.3 (0 when the description is empty), a company component capped at
0.1, and 0.2 times the recency score, with the total capped at 1.0.
Meaningful under the claim's hypothesis that the search term splits into
at least one keyword. -/
def specRelevance (job : Job) (search_term : String) : ℚ :=
  let keywords := pySplit (pyLower search_term)
  let k : ℚ := (keywords.length : ℚ)
  let titleComponent :=
    min (2/5) (((countMatches keywords (pyLower (job.title.getD "")) : ℚ) / k) * (2/5))
  let descComponent :=
    if pyLower (job.description.getD "") ≠ "" then
      min (3/10) (((countMatches keywords (pyLower (job.description.getD "")) : ℚ) / k) * (3/10))
    else 0
  let companyComponent :=
    min (1/10) (((countMatches keywords (pyLower (job.company.getD "")) : ℚ) / k) * (1/10))
  min 1 (titleComponent + descComponent + companyComponent
    + (1/5) * specRecencyScore (job.date_posted.getD ""))

theorem specRecencyScore_eq (d : String) : specRecencyScore d = recency_score d := rfl

/-- C5: on every job whose search term splits into at least one keyword,
`JobResultProcessor.calculate_relevance` computes exactly the weighted
capped sum the specification describes. -/
theorem calculate_relevance_spec (job : Job) (search_term : String)
    (h : pySplit (pyLower search_term) ≠ []) :
    calculate_relevance job search_term = specRelevance job search_term := by
  unfold calculate_relevance specRelevance
  rcases hk : pySplit (pyLower search_term) with _ | ⟨kw, kws⟩
  · exact absurd hk h
  · simp only [specRecencyScore_eq]
    ring_nf

/-- Witness for C5 at a concrete job and search term. -/
theorem calculate_relevance_spec_witness :
    calculate_relevance
        { title := some "Python Developer", description := some "python and sql",
          date_posted := some "today" } "python developer"
      = specRelevance
        { title := some "Python Developer", description := some "python and sql",
          date_posted := some "today" } "python developer" :=
  calculate_relevance_spec _ _ (by decide)

/-! ### Sorting lemmas -/

theorem sort_by_date_perm (results : List Job) (sort_order : String) :
    (sort_by_date results sort_order).Perm results := by
  unfold sort_by_date
  split_ifs <;> exact List.perm_insertionSort _ _

theorem sort_by_date_sorted_asc (results : List Job) (sort_order : String)
    (h : pyLower sort_order = "asc") :
    List.Sorted (fun a b => getDateValue a ≤ getDateValue b)
      (sort_by_date results sort_order) := by
  unfold sort_by_date
  rw [if_pos h]
  haveI : IsTotal Job (fun a b => getDateValue a ≤ getDateValue b) :=
    ⟨fun a b => le_total _ _⟩
  haveI : IsTrans Job (fun a b => getDateValue a ≤ getDateValue b) :=
    ⟨fun _ _ _ hab hbc => le_trans hab hbc⟩
  exact List.sorted_insertionSort _ _

theorem sort_by_date_sorted_desc (results : List Job) (sort_order : String)
    (h : pyLower sort_order ≠ "asc") :
    List.Sorted (fun a b => getDateValue b ≤ getDateValue a)
      (sort_by_date results sort_order) := by
  unfold sort_by_date
  rw [if_neg h]
  haveI : IsTotal Job (fun a b => getDateValue b ≤ getDateValue a) :=
    ⟨fun a b => le_total _ _⟩
  haveI : IsTrans Job (fun a b => getDateValue b ≤ getDateValue a) :=
    ⟨fun _ _ _ hab hbc => le_trans hbc hab⟩
  exact List.sorted_insertionSort _ _

/-- C7: `JobResultProcessor.sort_by_date` permutes its input ordered by
the recency bucket of each `date_posted` phrase, ascending exactly when
`sort_order` lower-cases to "asc" and descending otherwise; the bucket
values on the enumerated phrase families are those the claim lists. -/
theorem sort_by_date_correct (results : List Job) (sort_order : String) :
    (sort_by_date results sort_order).Perm results
    ∧ (pyLower sort_order = "asc" →
        List.Sorted (fun a b => getDateValue a ≤ getDateValue b)
          (sort_by_date results sort_order))
    ∧ (pyLower sort_order ≠ "asc" →
        List.Sorted (fun a b => getDateValue b ≤ getDateValue a)
          (sort_by_date results sort_order))
    ∧ getDateValue { date_posted := some "today" } = 0
    ∧ getDateValue { date_posted := some "just now" } = 0
    ∧ getDateValue { date_posted := some "5 hours ago" } = 0
    ∧ getDateValue { date_posted := some "yesterday" } = 1
    ∧ getDateValue { date_posted := some "3 days ago" } = 3
    ∧ getDateValue { date_posted := some "2 weeks ago" } = 14
    ∧ getDateValue { date_posted := some "2 months ago" } = 60
    ∧ getDateValue { date_posted := some "recently" } = 9999 :=
  ⟨sort_by_date_perm results sort_order,
    sort_by_date_sorted_asc results sort_order,
    sort_by_date_sorted_desc results sort_order,
    by decide, by decide, by decide, by decide, by decide, by decide, by decide, by decide⟩

/-- Witness for C7 at a concrete input: sorting two jobs ascending. -/
theorem sort_by_date_correct_witness :
    (sort_by_date [{ date_posted := some "today" }, { date_posted := some "yesterday" }]
        "asc").Perm [{ date_posted := some "today" }, { date_posted := some "yesterday" }]
    ∧ List.Sorted (fun a b => getDateValue a ≤ getDateValue b)
        (sort_by_date [{ date_posted := some "today" }, { date_posted := some "yesterday" }]
          "asc") :=
  ⟨(sort_by_date_correct _ _).1, (sort_by_date_correct _ _).2.1 (by decide)⟩

/-- C10: with any sort order other than "asc" (including the default
"desc"), `sort_by_date` orders jobs by decreasing bucket value, so an
unrecognized date phrase (bucket 9999) is placed before a job posted
today (bucket 0); concretely `[today, recently]` sorts to
`[recently, today]` under "desc". -/
theorem sort_by_date_desc_puts_old_first (results : List Job) (sort_order : String)
    (_hne : results ≠ []) (h : pyLower sort_order ≠ "asc") :
    (sort_by_date results sort_order).Perm results
    ∧ List.Sorted (fun a b => getDateValue b ≤ getDateValue a)
        (sort_by_date results sort_order)
    ∧ sort_by_date [{ date_posted := some "today" }, { date_posted := some "recently" }]
        "desc"
      = [{ date_posted := some "recently" }, { date_posted := some "today" }] :=
  ⟨sort_by_date_perm results sort_order,
    sort_by_date_sorted_desc results sort_order h,
    by decide⟩

/-- Witness for C10 at a concrete input. -/
theorem sort_by_date_desc_puts_old_first_witness :
    (sort_by_date [{ date_posted := some "today" }, { date_posted := some "recently" }]
        "desc").Perm [{ date_posted := some "today" }, { date_posted := some "recently" }]
    ∧ List.Sorted (fun a b => getDateValue b ≤ getDateValue a)
        (sort_by_date [{ date_posted := some "today" }, { date_posted := some "recently" }]
          "desc")
    ∧ sort_by_date [{ date_posted := some "today" }, { date_posted := some "recently" }]
        "desc"
      = [{ date_posted := some "recently" }, { date_posted := some "today" }] :=
  sort_by_date_desc_puts_old_first
    [{ date_posted := some "today" }, { date_posted := some "recently" }] "desc"
    (by decide) (by decide)

/-! ### JobSearchService (backend/app/services/job_search_service.py) -/

/-- `JobSearchParams` (the fields `search_jobs` and its post-processing
read). Defaults follow the Pydantic model. -/
structure JobSearchParams where
  search_term : String
  location : Option String := some "Australia"
  num_jobs : Option Nat := some 30
  site_name : Option String := none
  sort_order : Option String := some "desc"
deriving DecidableEq, Repr

/-- A scraper's `search` coroutine: either a result list or a raised
exception (embedded as `Except` with the exception text). -/
def Scraper : Type := JobSearchParams → Except String (List Job)

/-- The per-site loop of `JobSearchService.search_jobs` (lines 83-98):
each site gets `params.copy(update={...})` with its own name, a raising
scraper is logged and skipped (`continue`), and successful results are
appended in site order. -/
def gatherResults (params : JobSearchParams) :
    List (String × Scraper) → List Job
  | [] => []
  | (site_name, scraper) :: rest =>
    match scraper { params with site_name := some site_name } with
    | Except.ok results => results ++ gatherResults params rest
    | Except.error _ => gatherResults params rest

/-- `JobSearchService._post_process_results`: deduplicate, enrich,
sort when `sort_order` is truthy, and truncate when `num_jobs` is
truthy (Python truthiness: `None`, `""` and `0` are falsy). -/
def post_process_results (results : List Job) (params : JobSearchParams) : List Job :=
  let r1 := filter_duplicates results
  let r2 := enrich_results r1 params.search_term
  let r3 :=
    match params.sort_order with
    | none => r2
    | some so => if so = "" then r2 else sort_by_date r2 so
  match params.num_jobs with
  | none => r3
  | some n => if n = 0 then r3 else r3.take n

/-- `JobSearchService.search_jobs` restricted to its core (the claim's
hypothesis): the `(site, scraper)` pairs the factory produced for the
requested sites, gathered then post-processed. -/
def search_jobs (params : JobSearchParams) (pairs : List (String × Scraper)) : List Job :=
  post_process_results (gatherResults params pairs) params

theorem gatherResults_append (params : JobSearchParams)
    (l1 l2 : List (String × Scraper)) :
    gatherResults params (l1 ++ l2) =
      gatherResults params l1 ++ gatherResults params l2 := by
  induction l1 with
  | nil => simp [gatherResults]
  | cons p rest ih =>
    rcases p with ⟨site_name, scraper⟩
    rw [List.cons_append, gatherResults, gatherResults]
    rcases scraper { params with site_name := some site_name } with e | r
    · exact ih
    · rw [ih, List.append_assoc]

/-- C6: a scraper that raises is skipped: the gathered results with the
failing site present are exactly the concatenation, in site order, of
every other site's results, and the whole search returns the same list
as if the failing site were absent. -/
theorem search_jobs_skips_failing_site (params : JobSearchParams)
    (pre post : List (String × Scraper)) (site : String) (scraper : Scraper)
    (err : String)
    (hfail : scraper { params with site_name := some site } = Except.error err) :
    gatherResults params (pre ++ (site, scraper) :: post)
      = gatherResults params pre ++ gatherResults params post
    ∧ search_jobs params (pre ++ (site, scraper) :: post)
      = search_jobs params (pre ++ post) := by
  have hgather : gatherResults params (pre ++ (site, scraper) :: post)
      = gatherResults params pre ++ gatherResults params post := by
    rw [gatherResults_append, gatherResults, hfail]
  refine ⟨hgather, ?_⟩
  unfold search_jobs
  rw [hgather, gatherResults_append]

/-- Witness for C6: one succeeding site and one raising site; the
failing site leaves the outcome unchanged. -/
theorem search_jobs_skips_failing_site_witness :
    gatherResults { search_term := "python" }
        ([("indeed", fun _ => Except.ok [{ title := some "T" }])]
          ++ ("linkedin", fun _ => Except.error "boom")
            :: [("glassdoor", fun _ => Except.ok [{ title := some "U" }])])
      = gatherResults { search_term := "python" }
          [("indeed", fun _ => Except.ok [{ title := some "T" }])]
        ++ gatherResults { search_term := "python" }
            [("glassdoor", fun _ => Except.ok [{ title := some "U" }])]
    ∧ search_jobs { search_term := "python" }
        ([("indeed", fun _ => Except.ok [{ title := some "T" }])]
          ++ ("linkedin", fun _ => Except.error "boom")
            :: [("glassdoor", fun _ => Except.ok [{ title := some "U" }])])
      = search_jobs { search_term := "python" }
          ([("indeed", fun _ => Except.ok [{ title := some "T" }])]
            ++ [("glassdoor", fun _ => Except.ok [{ title := some "U" }])]) :=
  search_jobs_skips_failing_site { search_term := "python" }
    [("indeed", fun _ => Except.ok [{ title := some "T" }])]
    [("glassdoor", fun _ => Except.ok [{ title := some "U" }])]
    "linkedin" (fun _ => Except.error "boom") "boom" rfl

/-! ### JWKS provider (backend/app/services/auth/jwks_provider.py)

PEM keys are embedded as opaque strings. The JWK-to-PEM conversion
(`_jwk_to_pem`, which calls into the external `cryptography` library) is
a parameter `jwkToPem`, with `Except` for its possible
`AuthenticationError`; the remote JWKS document is the key list the
endpoint would return, and the `Bool` in the result records whether the
endpoint was contacted. -/

structure JWK where
  kid : Option String := none
  e : String := "AQAB"
  n : String := ""
deriving DecidableEq, Repr

/-- `Auth0JWKSProvider.get_public_key`: serve from the cache when the
kid is present; otherwise fetch the document, take the first key whose
kid matches, convert it to PEM, cache it, and return it. The error
payload carries the `AuthenticationError` message: both the
unable-to-find raise and a conversion failure are raised inside the
`try`, so the `except Exception` clause catches them and re-raises
`AuthenticationError("Failed to process JWKS: " + str(e))`. -/
def get_public_key (jwkToPem : JWK → Except String String)
    (endpointKeys : List JWK) (cache : List (String × String)) (kid : String) :
    Except String String × List (String × String) × Bool :=
  match cache.lookup kid with
  | some pem => (Except.ok pem, cache, false)
  | none =>
    match endpointKeys.find? (fun k => k.kid == some kid) with
    | none =>
      (Except.error ("Failed to process JWKS: " ++ ("Unable to find key with kid: " ++ kid)),
        cache, true)
    | some jwk =>
      match jwkToPem jwk with
      | Except.ok pem => (Except.ok pem, (kid, pem) :: cache, true)
      | Except.error e => (Except.error ("Failed to process JWKS: " ++ e), cache, true)

/-- `Auth0JWKSProvider.clear_cache`. -/
def clear_cache (_cache : List (String × String)) : List (String × String) := []

/-- C8: a successful `get_public_key` stores the PEM key in the cache;
every later call with the same kid answers from the cache (returning the
same bytes without contacting the endpoint); entries already cached are
never evicted; only `clear_cache` empties the cache. -/
theorem get_public_key_caches (jwkToPem : JWK → Except String String)
    (endpointKeys : List JWK) (cache : List (String × String)) (kid pem : String)
    (cache2 : List (String × String)) (fetched : Bool)
    (h : get_public_key jwkToPem endpointKeys cache kid = (Except.ok pem, cache2, fetched)) :
    cache2.lookup kid = some pem
    ∧ get_public_key jwkToPem endpointKeys cache2 kid = (Except.ok pem, cache2, false)
    ∧ (∀ entry ∈ cache, entry ∈ cache2)
    ∧ clear_cache cache2 = [] := by
  unfold get_public_key at h
  rcases hc : List.lookup kid cache with _ | p
  · rw [hc] at h
    dsimp only at h
    rcases hf : List.find? (fun k => k.kid == some kid) endpointKeys with _ | jwk
    · rw [hf] at h
      dsimp only at h
      simp at h
    · rw [hf] at h
      dsimp only at h
      rcases hp : jwkToPem jwk with e | p2
      · rw [hp] at h
        dsimp only at h
        simp at h
      · rw [hp] at h
        dsimp only at h
        simp only [Prod.mk.injEq] at h
        obtain ⟨h1, h2, _⟩ := h
        injection h1 with h1
        subst h1
        subst h2
        have hsome : List.lookup kid ((kid, p2) :: cache) = some p2 := by
          simp [List.lookup]
        refine ⟨hsome, ?_, fun entry he => List.mem_cons_of_mem _ he, rfl⟩
        unfold get_public_key
        rw [hsome]
  · rw [hc] at h
    dsimp only at h
    simp only [Prod.mk.injEq] at h
    obtain ⟨h1, h2, _⟩ := h
    injection h1 with h1
    subst h1
    subst h2
    refine ⟨hc, ?_, fun entry he => he, rfl⟩
    unfold get_public_key
    rw [hc]

/-- Witness for C8: a fresh provider caches the key for kid "kid1". -/
theorem get_public_key_caches_witness :
    ([("kid1", "PEM-mod")] : List (String × String)).lookup "kid1" = some "PEM-mod"
    ∧ get_public_key (fun j => Except.ok ("PEM-" ++ j.n)) [{ kid := some "kid1", n := "mod" }]
        [("kid1", "PEM-mod")] "kid1"
      = (Except.ok "PEM-mod", [("kid1", "PEM-mod")], false)
    ∧ (∀ entry ∈ ([] : List (String × String)), entry ∈ ([("kid1", "PEM-mod")] : List (String × String)))
    ∧ clear_cache [("kid1", "PEM-mod")] = [] :=
  get_public_key_caches (fun j => Except.ok ("PEM-" ++ j.n))
    [{ kid := some "kid1", n := "mod" }] [] "kid1" "PEM-mod"
    [("kid1", "PEM-mod")] true rfl

/-! ### Auth0Service.verify_token (backend/app/services/auth/auth_service.py) -/

/-- The typed authentication exception hierarchy
(`app.exceptions`): `TokenExpiredError` and `InvalidTokenError` are the
`AuthenticationError` subclasses `verify_token` raises, and the
catch-all re-raise is the base `AuthenticationError`. -/
inductive AuthError where
  | tokenExpiredError : AuthError
  | invalidTokenError : String → AuthError
  | authenticationError : String → AuthError
deriving DecidableEq, Repr

/-- Exceptions of the external PyJWT `jwt.decode`, as caught by the
`except` clauses of `verify_token`. -/
inductive JwtError where
  | expiredSignature : JwtError
  | invalidAudience : JwtError
  | invalidIssuer : JwtError
  | invalidTokenGeneric : String → JwtError
deriving DecidableEq, Repr

/-- A JWT as `verify_token` observes it: the header kid, the unique PEM
key its RS256 signature verifies against (`none` when the signature is
invalid under every key), whether its `exp` has passed, and its
audience, issuer and payload claims. -/
structure PyToken where
  kid : Option String := none
  signedWith : Option String := none
  expired : Bool := false
  aud : String := ""
  iss : String := ""
  payload : String := ""
deriving DecidableEq, Repr

/-- Model of the external
`jwt.decode(token, key, algorithms=["RS256"], audience, issuer)`:
verifies the signature against `key`, then expiry, then audience, then
issuer, returning the payload only when all of them validate. -/
def jwtDecode (token : PyToken) (key : String) (audience issuer : String) :
    Except JwtError String :=
  if token.signedWith ≠ some key then
    Except.error (JwtError.invalidTokenGeneric "Signature verification failed")
  else if token.expired then Except.error JwtError.expiredSignature
  else if token.aud ≠ audience then Except.error JwtError.invalidAudience
  else if token.iss ≠ issuer then Except.error JwtError.invalidIssuer
  else Except.ok token.payload

/-- `Auth0Service` configuration. -/
structure Auth0Service where
  domain : String
  api_audience : String
deriving DecidableEq, Repr

/-- The issuer computed in `Auth0Service.__init__`. -/
def Auth0Service.issuer (s : Auth0Service) : String := "https://" ++ s.domain ++ "/"

/-- `Auth0Service.verify_token`: extract the kid; `if not kid:` rejects
both a missing kid and an empty-string kid, and the app-level
`InvalidTokenError("Token missing 'kid' in header")` it raises is not a
PyJWT exception, so it falls through to the function's own
`except Exception` and escapes as the base
`AuthenticationError("Token verification failed: " + str(e))` (the
quote characters of the source message are omitted here). Otherwise the
public key is retrieved through the JWKS provider (whose
`AuthenticationError` likewise reaches the catch-all and is re-wrapped),
then the token is decoded, mapping each PyJWT exception to its typed
counterpart. Returns the payload and the provider cache. -/
def verify_token (s : Auth0Service) (jwkToPem : JWK → Except String String)
    (endpointKeys : List JWK) (cache : List (String × String)) (token : PyToken) :
    Except AuthError String × List (String × String) :=
  match token.kid with
  | none =>
    (Except.error (AuthError.authenticationError
        ("Token verification failed: " ++ "Token missing kid in header")), cache)
  | some kid =>
    if kid = "" then
      (Except.error (AuthError.authenticationError
          ("Token verification failed: " ++ "Token missing kid in header")), cache)
    else
    match get_public_key jwkToPem endpointKeys cache kid with
    | (Except.error msg, cache2, _) =>
      (Except.error (AuthError.authenticationError ("Token verification failed: " ++ msg)),
        cache2)
    | (Except.ok public_key, cache2, _) =>
      match jwtDecode token public_key s.api_audience s.issuer with
      | Except.ok payload => (Except.ok payload, cache2)
      | Except.error JwtError.expiredSignature =>
        (Except.error AuthError.tokenExpiredError, cache2)
      | Except.error JwtError.invalidAudience =>
        (Except.error (AuthError.invalidTokenError "Invalid audience"), cache2)
      | Except.error JwtError.invalidIssuer =>
        (Except.error (AuthError.invalidTokenError "Invalid issuer"), cache2)
      | Except.error (JwtError.invalidTokenGeneric m) =>
        (Except.error (AuthError.invalidTokenError m), cache2)

/-- C1: `verify_token` rejects with a typed authentication error any
token whose kid is unknown to the JWKS key set (with the exact
doubly-wrapped message the program produces) as well as any token whose
kid is missing or untruthy, any token whose audience differs from the
configured `api_audience`, and any expired token; it returns a payload
only when the signature validates against the key retrieved for its
kid, it is not expired, and audience and issuer both match. -/
theorem verify_token_correct (s : Auth0Service) (jwkToPem : JWK → Except String String)
    (endpointKeys : List JWK) (cache : List (String × String)) (token : PyToken) :
    (∀ kid, token.kid = some kid → kid ≠ "" → List.lookup kid cache = none →
      List.find? (fun k => k.kid == some kid) endpointKeys = none →
      (verify_token s jwkToPem endpointKeys cache token).1
        = Except.error (AuthError.authenticationError
            ("Token verification failed: "
              ++ ("Failed to process JWKS: " ++ ("Unable to find key with kid: " ++ kid)))))
    ∧ ((token.kid = none ∨ token.kid = some "") →
        (verify_token s jwkToPem endpointKeys cache token).1
          = Except.error (AuthError.authenticationError
              ("Token verification failed: " ++ "Token missing kid in header")))
    ∧ (token.aud ≠ s.api_audience →
        ∃ e, (verify_token s jwkToPem endpointKeys cache token).1 = Except.error e)
    ∧ (token.expired = true →
        ∃ e, (verify_token s jwkToPem endpointKeys cache token).1 = Except.error e)
    ∧ (∀ payload, (verify_token s jwkToPem endpointKeys cache token).1 = Except.ok payload →
        (∃ kid pem, token.kid = some kid ∧ token.signedWith = some pem
          ∧ (get_public_key jwkToPem endpointKeys cache kid).1 = Except.ok pem)
        ∧ token.expired = false ∧ token.aud = s.api_audience ∧ token.iss = s.issuer
        ∧ payload = token.payload) := by
  refine ⟨?_, ?_, ?_, ?_, ?_⟩
  · intro kid hkid hne hc hf
    simp [verify_token, hkid, hne, get_public_key, hc, hf]
  · intro h
    rcases h with hk | hk <;> simp [verify_token, hk]
  · intro haud
    rcases hk : token.kid with _ | kid
    · exact ⟨AuthError.authenticationError
          ("Token verification failed: " ++ "Token missing kid in header"),
        by simp [verify_token, hk]⟩
    · by_cases hkid0 : kid = ""
      · exact ⟨AuthError.authenticationError
            ("Token verification failed: " ++ "Token missing kid in header"),
          by simp [verify_token, hk, hkid0]⟩
      · rcases hg : get_public_key jwkToPem endpointKeys cache kid with ⟨res, cache2, fl⟩
        rcases res with msg | key
        · exact ⟨AuthError.authenticationError ("Token verification failed: " ++ msg),
            by simp [verify_token, hk, hkid0, hg]⟩
        · rcases hj : jwtDecode token key s.api_audience s.issuer with er | pl
          · cases er with
            | expiredSignature => exact ⟨AuthError.tokenExpiredError,
                by simp [verify_token, hk, hkid0, hg, hj]⟩
            | invalidAudience => exact ⟨AuthError.invalidTokenError "Invalid audience",
                by simp [verify_token, hk, hkid0, hg, hj]⟩
            | invalidIssuer => exact ⟨AuthError.invalidTokenError "Invalid issuer",
                by simp [verify_token, hk, hkid0, hg, hj]⟩
            | invalidTokenGeneric m => exact ⟨AuthError.invalidTokenError m,
                by simp [verify_token, hk, hkid0, hg, hj]⟩
          · exfalso
            unfold jwtDecode at hj
            split_ifs at hj
  · intro hexp
    rcases hk : token.kid with _ | kid
    · exact ⟨AuthError.authenticationError
          ("Token verification failed: " ++ "Token missing kid in header"),
        by simp [verify_token, hk]⟩
    · by_cases hkid0 : kid = ""
      · exact ⟨AuthError.authenticationError
            ("Token verification failed: " ++ "Token missing kid in header"),
          by simp [verify_token, hk, hkid0]⟩
      · rcases hg : get_public_key jwkToPem endpointKeys cache kid with ⟨res, cache2, fl⟩
        rcases res with msg | key
        · exact ⟨AuthError.authenticationError ("Token verification failed: " ++ msg),
            by simp [verify_token, hk, hkid0, hg]⟩
        · rcases hj : jwtDecode token key s.api_audience s.issuer with er | pl
          · cases er with
            | expiredSignature => exact ⟨AuthError.tokenExpiredError,
                by simp [verify_token, hk, hkid0, hg, hj]⟩
            | invalidAudience => exact ⟨AuthError.invalidTokenError "Invalid audience",
                by simp [verify_token, hk, hkid0, hg, hj]⟩
            | invalidIssuer => exact ⟨AuthError.invalidTokenError "Invalid issuer",
                by simp [verify_token, hk, hkid0, hg, hj]⟩
            | invalidTokenGeneric m => exact ⟨AuthError.invalidTokenError m,
                by simp [verify_token, hk, hkid0, hg, hj]⟩
          · exfalso
            unfold jwtDecode at hj
            split_ifs at hj
  · intro payload hok
    rcases hk : token.kid with _ | kid
    · simp [verify_token, hk] at hok
    · by_cases hkid0 : kid = ""
      · simp [verify_token, hk, hkid0] at hok
      · rcases hg : get_public_key jwkToPem endpointKeys cache kid with ⟨res, cache2, fl⟩
        rcases res with msg | key
        · simp [verify_token, hk, hkid0, hg] at hok
        · rcases hj : jwtDecode token key s.api_audience s.issuer with er | pl
          · cases er <;> simp [verify_token, hk, hkid0, hg, hj] at hok
          · have hpl : pl = payload := by
              simpa [verify_token, hk, hkid0, hg, hj] using hok
            unfold jwtDecode at hj
            split_ifs at hj with h1 h2 h3 h4
            push_neg at h1 h3 h4
            injection hj with hj
            refine ⟨⟨kid, key, rfl, h1, ?_⟩, ?_, h3, h4, ?_⟩
            · rw [hg]
            · simpa using h2
            · rw [← hpl, ← hj]

/-- Witness for C1: a token with the wrong audience is rejected. -/
theorem verify_token_correct_witness :
    ∃ e, (verify_token { domain := "d", api_audience := "aud" }
        (fun j => Except.ok ("PEM-" ++ j.n)) [] []
        { kid := some "k", aud := "other" }).1 = Except.error e :=
  (verify_token_correct { domain := "d", api_audience := "aud" }
      (fun j => Except.ok ("PEM-" ++ j.n)) [] []
      { kid := some "k", aud := "other" }).2.2.1 (by decide)

end JobTracker
